import Mathlib

/-!
# borque: request-capture pipeline

A shallow embedding of `main.go`: the bearer-token gate `apiKeyAuthMiddleware`
and the capture handler `indexRoute`, together with the parts of the Go
standard library they call (`strings.Split`, `strings.ToLower`,
`http.Header.Get`, `http.Error`, `json.Marshal` on a header map).

Go strings are byte sequences, so a string is a list of byte values.  A
handler is a function from the request to the list of observable events it
performs, in order.
-/

namespace Borque

/-! ## Go strings -/

/-- A Go `string`: an immutable sequence of bytes (not necessarily UTF-8). -/
abbrev GoString := List Nat

/-- The bytes of an ASCII string literal of the source. -/
def lit (s : String) : GoString := s.toList.map Char.toNat

/-- Go `strings.Split(s, sep)` for a one-byte separator: the substrings
between the occurrences of `sep`; a string without `sep` gives one part. -/
def Split (s : GoString) (sep : Nat) : List GoString :=
  match s with
  | [] => [[]]
  | c :: cs =>
    if c = sep then [] :: Split cs sep
    else
      match Split cs sep with
      | [] => [[c]]
      | p :: ps => (c :: p) :: ps

/-- One byte through Go `strings.ToLower` on its ASCII path: `A`..`Z` move to
`a`..`z`, every other byte stays. -/
def lowerByte (c : Nat) : Nat :=
  if 65 ≤ c ∧ c ≤ 90 then c + 32 else c

/-- Go `strings.ToLower`.  On a string of ASCII bytes this is the library's
result.  On a string with a byte of 0x80 or more the library maps each rune
through `unicode.ToLower`; no rune outside ASCII lowers to a letter of
`bearer` and an invalid byte becomes U+FFFD, so the result there is never an
ASCII literal made of those letters, as here where such bytes are kept. -/
def ToLower (s : GoString) : GoString := s.map lowerByte

/-! ## Headers -/

/-- Go `http.Header`, a `map[string][]string`, as its list of entries (a map
holds each key once).  The server builds it non-nil with non-nil values. -/
abbrev Header := List (GoString × List GoString)

/-- Go `Header.Get(key)` for a key already in canonical form: the first value
stored under the key, the empty string when there is none. -/
def Header.Get (h : Header) (key : GoString) : GoString :=
  match h.lookup key with
  | some (v :: _) => v
  | _ => []

/-! ## Requests, the store interface and observable events -/

/-- Go `sql.NullString`: `Valid = false` is SQL NULL. -/
structure NullString where
  String : GoString
  Valid : Bool
deriving DecidableEq

/-- The record handed to the store, `repository.InsertRequestParams`. -/
structure InsertRequestParams where
  Method : NullString
  Path : GoString
  Headers : GoString
  Query : GoString
  Body : GoString
deriving DecidableEq

/-- The parts of `*http.Request` the handlers use.  `Query` stands for
`r.URL.Query().Encode()`, the canonical encoding of the query parameters, and
`Body` for the outcome of `io.ReadAll(r.Body)`: the bytes, or the text of the
read error. -/
structure Request where
  Method : GoString
  Path : GoString
  Query : GoString
  Header : Header
  Body : Except GoString GoString

/-- The store behind `queries.InsertRequest`: `none` is a nil error, `some e`
an error with text `e`. -/
abbrev Queries := InsertRequestParams → Option GoString

/-- What a handler does that can be observed from outside, in order. -/
inductive Event where
  /-- A `log.Printf` call: the format and its arguments. -/
  | log (format : GoString) (args : List GoString)
  /-- The request body is read, `io.ReadAll(r.Body)`. -/
  | readBody
  /-- A call of `queries.InsertRequest`. -/
  | insert (p : InsertRequestParams)
  /-- A response header is set, `w.Header().Set`. -/
  | setHeader (key value : GoString)
  /-- The status line is written, `w.WriteHeader`. -/
  | writeHeader (code : Nat)
  /-- Bytes are written to the response body, `w.Write`. -/
  | write (bytes : GoString)
deriving DecidableEq

/-- The events of one handler invocation. -/
abbrev Trace := List Event

/-- Go `http.Handler`. -/
abbrev Handler := Request → Trace

/-- Go `http.Error(w, error, code)`: plain-text content type, the status,
then the text and a newline. -/
def httpError (error : GoString) (code : Nat) : Trace :=
  [ Event.setHeader (lit "Content-Type") (lit "text/plain; charset=utf-8"),
    Event.setHeader (lit "X-Content-Type-Options") (lit "nosniff"),
    Event.writeHeader code,
    Event.write (error ++ [10]) ]

/-- Go `http.StatusUnauthorized`. -/
def StatusUnauthorized : Nat := 401

/-- Go `http.StatusInternalServerError`. -/
def StatusInternalServerError : Nat := 500

/-- Go `http.StatusOK`. -/
def StatusOK : Nat := 200

/-- The bearer-token gate of `main.go`; `apiKey` is `os.Getenv("API_KEY")`. -/
def apiKeyAuthMiddleware (apiKey : GoString) (next : Handler) : Handler :=
  fun r =>
    if apiKey ≠ [] then
      let authHeader := r.Header.Get (lit "Authorization")
      if authHeader = [] then
        Event.log (lit "Missing Authorization header") [] ::
          httpError (lit "Unauthorized") StatusUnauthorized
      else
        let parts := Split authHeader 32
        if parts.length ≠ 2 ∨ ToLower (parts.getD 0 []) ≠ lit "bearer" then
          Event.log (lit "Invalid Authorization header format") [] ::
            httpError (lit "Unauthorized") StatusUnauthorized
        else if parts.getD 1 [] ≠ apiKey then
          Event.log (lit "Invalid API key") [] ::
            httpError (lit "Unauthorized") StatusUnauthorized
        else
          next r
    else
      next r

/-! ## encoding/json on a header map -/

/-- Go `utf8.RuneError`, U+FFFD. -/
def RuneError : Nat := 0xFFFD

/-- Go `utf8.DecodeRuneInString`: the first rune of `s` and its width in
bytes; `(RuneError, 1)` when the encoding is invalid or cut short and
`(RuneError, 0)` on the empty string. -/
def DecodeRuneInString (s : GoString) : Nat × Nat :=
  match s with
  | [] => (RuneError, 0)
  | s0 :: t =>
    if s0 < 0x80 then (s0, 1)
    else if s0 < 0xC2 ∨ 0xF4 < s0 then (RuneError, 1)
    else
      let sz := if s0 < 0xE0 then 2 else if s0 < 0xF0 then 3 else 4
      let lo := if s0 = 0xE0 then 0xA0 else if s0 = 0xF0 then 0x90 else 0x80
      let hi := if s0 = 0xED then 0x9F else if s0 = 0xF4 then 0x8F else 0xBF
      if s.length < sz then (RuneError, 1)
      else
        match t with
        | [] => (RuneError, 1)
        | s1 :: t1 =>
          if s1 < lo ∨ hi < s1 then (RuneError, 1)
          else if sz ≤ 2 then (64 * (s0 % 32) + s1 % 64, 2)
          else
            match t1 with
            | [] => (RuneError, 1)
            | s2 :: t2 =>
              if s2 < 0x80 ∨ 0xBF < s2 then (RuneError, 1)
              else if sz ≤ 3 then (4096 * (s0 % 16) + 64 * (s1 % 64) + s2 % 64, 3)
              else
                match t2 with
                | [] => (RuneError, 1)
                | s3 :: _ =>
                  if s3 < 0x80 ∨ 0xBF < s3 then (RuneError, 1)
                  else (262144 * (s0 % 8) + 4096 * (s1 % 64) + 64 * (s2 % 64) + s3 % 64, 4)

/-- Go `utf8.ValidString`, with `fuel` bounding the number of runes: no
position of the scan decodes to `(RuneError, 1)`. -/
def ValidStringLoop : Nat → GoString → Bool
  | 0, s => s.isEmpty
  | _ + 1, [] => true
  | fuel + 1, b :: rest =>
    let d := DecodeRuneInString (b :: rest)
    if d.1 = RuneError ∧ d.2 = 1 then false
    else ValidStringLoop fuel (rest.drop (d.2 - 1))

/-- Go `utf8.ValidString`: the bytes are a well-formed UTF-8 text. -/
def ValidString (s : GoString) : Bool := ValidStringLoop s.length s

/-- The table `htmlSafeSet` of `encoding/json`, on bytes below 0x80: the
printable ASCII bytes and DEL, without the double quote, the backslash and
the three HTML bytes `&`, `<`, `>`. -/
def htmlSafeSet (b : Nat) : Bool :=
  decide (0x20 ≤ b) && !(b == 34 || b == 38 || b == 60 || b == 62 || b == 92)

/-- The digit table `hex` of `encoding/json`, "0123456789abcdef". -/
def hex (n : Nat) : Nat := if n < 10 then 48 + n else 87 + n

/-- The `switch b` of `appendString` for an ASCII byte outside the safe set
(Go 1.22 and later; earlier releases write backspace and form feed as
`\u0008` and `\u000c`). -/
def escapeByte (b : Nat) : GoString :=
  if b = 92 ∨ b = 34 then [92, b]
  else if b = 8 then [92, 98]
  else if b = 12 then [92, 102]
  else if b = 10 then [92, 110]
  else if b = 13 then [92, 114]
  else if b = 9 then [92, 116]
  else [92, 117, 48, 48, hex (b / 16), hex (b % 16)]

/-- The loop of `appendString` of `encoding/json` with `escapeHTML` set, as
`json.Marshal` runs it: what is written between the two quotes for the rest
`src[i:]` of the string.  Each turn consumes at least one byte, so `fuel`
equal to the length is enough. -/
def appendStringLoop : Nat → GoString → GoString
  | 0, _ => []
  | _ + 1, [] => []
  | fuel + 1, b :: rest =>
    if b < 0x80 then
      (if htmlSafeSet b then [b] else escapeByte b) ++ appendStringLoop fuel rest
    else
      let d := DecodeRuneInString (b :: rest)
      if d.1 = RuneError ∧ d.2 = 1 then
        lit "\\ufffd" ++ appendStringLoop fuel rest
      else if d.1 = 0x2028 ∨ d.1 = 0x2029 then
        [92, 117, 50, 48, 50, hex (d.1 % 16)] ++ appendStringLoop fuel (rest.drop (d.2 - 1))
      else
        (b :: rest).take d.2 ++ appendStringLoop fuel (rest.drop (d.2 - 1))

/-- Go `appendString(dst, src, true)` of `encoding/json`: `src` as a JSON
string literal. -/
def appendString (src : GoString) : GoString :=
  [34] ++ appendStringLoop src.length src ++ [34]

/-- The element loop of `arrayEncoder.encode` on a `[]string`: a comma before
every element but the first. -/
def encodeElems : Bool → List GoString → GoString
  | _, [] => []
  | first, v :: vs =>
    (if first then [] else [44]) ++ appendString v ++ encodeElems false vs

/-- Go `arrayEncoder.encode` on a non-nil `[]string`. -/
def encodeSlice (vs : List GoString) : GoString :=
  [91] ++ encodeElems true vs ++ [93]

/-- Go `strings.Compare(a, b) <= 0`: bytewise lexicographic order. -/
def stringLE : GoString → GoString → Bool
  | [], _ => true
  | _ :: _, [] => false
  | a :: as, b :: bs => decide (a < b) || (a == b && stringLE as bs)

/-- The entry loop of `mapEncoder.encode`: key, colon, value, with a comma
before every entry but the first. -/
def encodeEntries : Bool → Header → GoString
  | _, [] => []
  | first, kv :: rest =>
    (if first then [] else [44]) ++ appendString kv.1 ++ [58] ++ encodeSlice kv.2
      ++ encodeEntries false rest

/-- Go `mapEncoder.encode` on a non-nil `map[string][]string`: the entries
sorted by key, between braces. -/
def encodeMap (h : Header) : GoString :=
  [123] ++ encodeEntries true (h.insertionSort (fun a b => stringLE a.1 b.1 = true)) ++ [125]

/-- Go `json.Marshal(r.Header)`: the text, or an error; a map of string
slices always encodes. -/
def jsonMarshal (h : Header) : Except GoString GoString :=
  Except.ok (encodeMap h)

/-! ## The capture handler -/

/-- The capture handler `indexRoute` of `main.go`. -/
def indexRoute (queries : Queries) : Handler :=
  fun r =>
    Event.log (lit "Incoming request: path=%s, query=%s") [r.Path, r.Query] ::
    Event.readBody ::
    match r.Body with
    | Except.error err =>
      Event.log (lit "Error reading request body: %v") [err] ::
        httpError (lit "Internal server error") StatusInternalServerError
    | Except.ok body =>
      match jsonMarshal r.Header with
      | Except.error err =>
        Event.log (lit "Error marshalling headers to JSON: %v") [err] ::
          httpError (lit "Internal server error") StatusInternalServerError
      | Except.ok headers =>
        let arg : InsertRequestParams :=
          { Method := { String := r.Method, Valid := decide (r.Method ≠ []) },
            Path := r.Path,
            Headers := headers,
            Query := r.Query,
            Body := body }
        Event.insert arg ::
        match queries arg with
        | some err =>
          Event.log (lit "Error inserting request into database: %v") [err] ::
            httpError (lit "Internal server error") StatusInternalServerError
        | none => [Event.write (lit "OK!")]

/-- The chain the server mounts on `/`: the gate around the capture handler. -/
def serve (apiKey : GoString) (queries : Queries) : Handler :=
  apiKeyAuthMiddleware apiKey (indexRoute queries)

/-! ## Reading a trace -/

/-- The status the client sees: the first `WriteHeader`, or 200 when the body
is written first (the implicit `WriteHeader(http.StatusOK)` of `Write`). -/
def responseStatus : Trace → Option Nat
  | [] => none
  | Event.writeHeader code :: _ => some code
  | Event.write _ :: _ => some StatusOK
  | _ :: t => responseStatus t

/-- The response body the client sees: all bytes written, in order. -/
def responseBody : Trace → GoString
  | [] => []
  | Event.write bytes :: t => bytes ++ responseBody t
  | _ :: t => responseBody t

/-- The `InsertRequest` calls of a trace, in order. -/
def insertsOf : Trace → List InsertRequestParams
  | [] => []
  | Event.insert p :: t => p :: insertsOf t
  | _ :: t => insertsOf t

/-- Whether an event writes to the response (status or body). -/
def Event.isResponse : Event → Bool
  | Event.writeHeader _ => true
  | Event.write _ => true
  | _ => false

/-! ## Reading back a JSON string

The reader below is not part of the program: it is the inverse used to state
that the text written by `appendString` determines the string. -/

/-- The value of a digit of the table `hex`. -/
def unhex (d : Nat) : Nat := if d < 58 then d - 48 else d - 87

/-- The UTF-8 bytes of a code point below 0x10000, the range of `\uXXXX`. -/
def utf8Bytes (cp : Nat) : GoString :=
  if cp < 0x80 then [cp]
  else if cp < 0x800 then [0xC0 + cp / 64, 0x80 + cp % 64]
  else [0xE0 + cp / 4096, 0x80 + cp / 64 % 64, 0x80 + cp % 64]

/-- The byte a one-letter JSON escape stands for. -/
def unescapeChar (c : Nat) : Nat :=
  if c = 98 then 8
  else if c = 102 then 12
  else if c = 110 then 10
  else if c = 114 then 13
  else if c = 116 then 9
  else c

/-- A reader of JSON string text from just after the opening quote: the bytes
of the string up to the closing quote, and the text that follows the quote. -/
def readString : List Nat → Option (GoString × List Nat)
  | [] => none
  | b :: rest =>
    if b = 34 then some ([], rest)
    else if b ≠ 92 then (readString rest).map (fun p => (b :: p.1, p.2))
    else
      match rest with
      | [] => none
      | c :: rest1 =>
        if c = 117 then
          match rest1 with
          | d1 :: d2 :: d3 :: d4 :: rest2 =>
            (readString rest2).map (fun p =>
              (utf8Bytes (((unhex d1 * 16 + unhex d2) * 16 + unhex d3) * 16 + unhex d4) ++ p.1,
                p.2))
          | _ => none
        else (readString rest1).map (fun p => (unescapeChar c :: p.1, p.2))

/-! ## Facts about `strings.Split` and `strings.ToLower` -/

theorem Split_cons (c : Nat) (cs : GoString) (sep : Nat) :
    Split (c :: cs) sep =
      if c = sep then [] :: Split cs sep
      else
        match Split cs sep with
        | [] => [[c]]
        | p :: ps => (c :: p) :: ps := by
  rw [Split]

theorem Split_ne_nil (s : GoString) (sep : Nat) : Split s sep ≠ [] := by
  cases s with
  | nil => simp [Split]
  | cons c cs =>
    unfold Split
    split
    · simp
    · split <;> simp

theorem Split_no_sep (sep : Nat) :
    ∀ (s : GoString) (p : GoString), p ∈ Split s sep → sep ∉ p := by
  intro s
  induction s with
  | nil => intro p hp; simp [Split] at hp; simp [hp]
  | cons c cs ih =>
    intro p hp
    unfold Split at hp
    split at hp
    · rcases List.mem_cons.1 hp with h | h
      · simp [h]
      · exact ih p h
    · rename_i hc
      split at hp
      · simp at hp; subst hp; simpa using fun h => hc h.symm
      · rename_i q qs hq
        rcases List.mem_cons.1 hp with h | h
        · subst h
          have hq0 : sep ∉ q := ih q (by rw [hq]; exact List.mem_cons_self _ _)
          intro hmem
          rcases List.mem_cons.1 hmem with h1 | h1
          · exact hc h1.symm
          · exact hq0 h1
        · exact ih p (by rw [hq]; exact List.mem_cons_of_mem _ h)

theorem Split_of_not_mem (sep : Nat) :
    ∀ (s : GoString), sep ∉ s → Split s sep = [s] := by
  intro s
  induction s with
  | nil => intro _; simp [Split]
  | cons c cs ih =>
    intro h
    have hc : ¬ c = sep := fun e => h (by simp [e])
    have hcs : sep ∉ cs := fun e => h (List.mem_cons_of_mem _ e)
    rw [Split_cons, if_neg hc, ih hcs]

theorem Split_append_sep (sep : Nat) (q : GoString) :
    ∀ (p : GoString), sep ∉ p → Split (p ++ sep :: q) sep = p :: Split q sep := by
  intro p
  induction p with
  | nil => intro _; simp [Split]
  | cons c cs ih =>
    intro h
    have hc : ¬ c = sep := fun e => h (by simp [e])
    have hcs : sep ∉ cs := fun e => h (List.mem_cons_of_mem _ e)
    show Split (c :: (cs ++ sep :: q)) sep = _
    rw [Split_cons, if_neg hc, ih hcs]

theorem Split_eq_pair (sep : Nat) :
    ∀ (s p q : GoString), Split s sep = [p, q] → s = p ++ sep :: q := by
  intro s
  induction s with
  | nil => intro p q h; simp [Split] at h
  | cons c cs ih =>
    intro p q h
    unfold Split at h
    split at h
    · rename_i hc
      simp only [List.cons.injEq] at h
      obtain ⟨hp, hq⟩ := h
      subst hp
      have hq1 : sep ∉ q := Split_no_sep sep cs q (by rw [hq]; simp)
      have : Split cs sep = [cs] → cs = q := by
        intro e; rw [e] at hq; simpa using hq
      -- the rest has no separator, or it would split further
      by_cases hm : sep ∈ cs
      · obtain ⟨a, b, hab, ha⟩ : ∃ a b, cs = a ++ sep :: b ∧ sep ∉ a := by
          obtain ⟨a, b, hab, ha⟩ := List.eq_append_cons_of_mem hm
          exact ⟨a, b, hab, ha⟩
        rw [hab, Split_append_sep sep b a ha] at hq
        have := Split_ne_nil b sep
        simp at hq
        exact absurd hq.2 this
      · rw [Split_of_not_mem sep cs hm] at hq
        simp at hq
        simp [hc, hq]
    · split at h
      · simp at h
      · rename_i q0 qs hq0
        simp only [List.cons.injEq] at h
        obtain ⟨hp, hq⟩ := h
        subst hp hq
        rw [ih q0 q hq0]
        simp

theorem ToLower_bearer_no_space (scheme : GoString)
    (h : ToLower scheme = lit "bearer") : 32 ∉ scheme := by
  intro hm
  have : lowerByte 32 ∈ ToLower scheme := List.mem_map_of_mem _ hm
  rw [h] at this
  revert this
  decide

/-! ## The gate, case by case -/

theorem middleware_pass (apiKey : GoString) (next : Handler) (r : Request)
    (h : apiKey = [] ∨
      (r.Header.Get (lit "Authorization") ≠ [] ∧
        (Split (r.Header.Get (lit "Authorization")) 32).length = 2 ∧
        ToLower ((Split (r.Header.Get (lit "Authorization")) 32).getD 0 []) = lit "bearer" ∧
        (Split (r.Header.Get (lit "Authorization")) 32).getD 1 [] = apiKey)) :
    apiKeyAuthMiddleware apiKey next r = next r := by
  simp only [apiKeyAuthMiddleware]
  rcases h with h | ⟨h1, h2, h3, h4⟩
  · rw [if_neg (by simp [h])]
  · by_cases hk : apiKey = []
    · rw [if_neg (by simp [hk])]
    · rw [if_pos hk, if_neg h1, if_neg (fun hn => hn.elim (fun a => a h2) (fun a => a h3)),
        if_neg (fun hn => hn h4)]

theorem middleware_block (apiKey : GoString) (r : Request)
    (hk : apiKey ≠ [])
    (h : ¬ (r.Header.Get (lit "Authorization") ≠ [] ∧
        (Split (r.Header.Get (lit "Authorization")) 32).length = 2 ∧
        ToLower ((Split (r.Header.Get (lit "Authorization")) 32).getD 0 []) = lit "bearer" ∧
        (Split (r.Header.Get (lit "Authorization")) 32).getD 1 [] = apiKey)) :
    ∃ reason, ∀ next : Handler, apiKeyAuthMiddleware apiKey next r =
      Event.log reason [] :: httpError (lit "Unauthorized") StatusUnauthorized := by
  simp only [apiKeyAuthMiddleware]
  by_cases h1 : r.Header.Get (lit "Authorization") = []
  · refine ⟨lit "Missing Authorization header", fun next => ?_⟩
    simp only [if_pos hk, if_pos h1]
  · by_cases h2 : (Split (r.Header.Get (lit "Authorization")) 32).length ≠ 2 ∨
        ToLower ((Split (r.Header.Get (lit "Authorization")) 32).getD 0 []) ≠ lit "bearer"
    · refine ⟨lit "Invalid Authorization header format", fun next => ?_⟩
      simp only [if_pos hk, if_neg h1, if_pos h2]
    · by_cases h3 : (Split (r.Header.Get (lit "Authorization")) 32).getD 1 [] ≠ apiKey
      · refine ⟨lit "Invalid API key", fun next => ?_⟩
        simp only [if_pos hk, if_neg h1, if_neg h2, if_pos h3]
      · exfalso
        apply h
        push_neg at h2 h3
        exact ⟨h1, h2.1, h2.2, h3⟩

theorem bearer_iff (apiKey header : GoString) (hk : 32 ∉ apiKey) :
    (header ≠ [] ∧ (Split header 32).length = 2 ∧
        ToLower ((Split header 32).getD 0 []) = lit "bearer" ∧
        (Split header 32).getD 1 [] = apiKey) ↔
      ∃ scheme, ToLower scheme = lit "bearer" ∧ header = scheme ++ 32 :: apiKey := by
  constructor
  · rintro ⟨_, h2, h3, h4⟩
    match hs : Split header 32, h2 with
    | [p, q], _ =>
      rw [hs] at h3 h4
      simp at h3 h4
      refine ⟨p, h3, ?_⟩
      rw [← h4]
      exact Split_eq_pair 32 header p q hs
  · rintro ⟨scheme, hl, rfl⟩
    have hs := ToLower_bearer_no_space scheme hl
    rw [Split_append_sep 32 apiKey scheme hs, Split_of_not_mem 32 apiKey hk]
    simp [hl]

/-! ## The gate: claims -/

/-- C1 (as amended): for a non-empty secret `S` without a space, the gate
runs the next handler exactly when the Authorization header is a scheme that
lowers to `bearer`, one space, then `S`; on every other header value it
answers with the 401 rejection and does not run the next handler. -/
theorem auth_admits_iff_bearer (S : GoString) (r : Request)
    (hS : S ≠ []) (hsp : 32 ∉ S) :
    ((∀ next : Handler, apiKeyAuthMiddleware S next r = next r) ↔
        ∃ scheme, ToLower scheme = lit "bearer" ∧
          r.Header.Get (lit "Authorization") = scheme ++ 32 :: S) ∧
      ((¬ ∃ scheme, ToLower scheme = lit "bearer" ∧
          r.Header.Get (lit "Authorization") = scheme ++ 32 :: S) →
        ∃ reason, ∀ next : Handler, apiKeyAuthMiddleware S next r =
          Event.log reason [] :: httpError (lit "Unauthorized") StatusUnauthorized) := by
  have key := bearer_iff S (r.Header.Get (lit "Authorization")) hsp
  have blocked : (¬ ∃ scheme, ToLower scheme = lit "bearer" ∧
          r.Header.Get (lit "Authorization") = scheme ++ 32 :: S) →
        ∃ reason, ∀ next : Handler, apiKeyAuthMiddleware S next r =
          Event.log reason [] :: httpError (lit "Unauthorized") StatusUnauthorized :=
    fun hn => middleware_block S r hS (fun hc => hn (key.1 hc))
  refine ⟨⟨fun hadm => ?_, fun hc next => middleware_pass S next r (Or.inr (key.2 hc))⟩, blocked⟩
  by_contra hn
  obtain ⟨reason, hrej⟩ := blocked hn
  have h1 := hadm (fun _ => [])
  rw [hrej] at h1
  exact absurd h1 (by simp)

/-- C1, witness: secret `abc123`, header `Authorization: Bearer abc123`. -/
theorem auth_admits_iff_bearer_witness :
    (lit "abc123" ≠ [] ∧ 32 ∉ lit "abc123") ∧
    (((∀ next : Handler, apiKeyAuthMiddleware (lit "abc123") next
          { Method := lit "GET", Path := lit "/hooks/github", Query := lit "event=push",
              Header := [(lit "Authorization", [lit "Bearer abc123"])], Body := Except.ok [] } =
          next
            { Method := lit "GET", Path := lit "/hooks/github", Query := lit "event=push",
              Header := [(lit "Authorization", [lit "Bearer abc123"])], Body := Except.ok [] }) ↔
        ∃ scheme, ToLower scheme = lit "bearer" ∧
          Header.Get [(lit "Authorization", [lit "Bearer abc123"])] (lit "Authorization") =
            scheme ++ 32 :: lit "abc123") ∧
      ((¬ ∃ scheme, ToLower scheme = lit "bearer" ∧
          Header.Get [(lit "Authorization", [lit "Bearer abc123"])] (lit "Authorization") =
            scheme ++ 32 :: lit "abc123") →
        ∃ reason, ∀ next : Handler, apiKeyAuthMiddleware (lit "abc123") next
          { Method := lit "GET", Path := lit "/hooks/github", Query := lit "event=push",
              Header := [(lit "Authorization", [lit "Bearer abc123"])], Body := Except.ok [] } =
          Event.log reason [] :: httpError (lit "Unauthorized") StatusUnauthorized)) :=
  ⟨⟨by decide, by decide⟩,
    auth_admits_iff_bearer (lit "abc123")
      { Method := lit "GET", Path := lit "/hooks/github", Query := lit "event=push",
        Header := [(lit "Authorization", [lit "Bearer abc123"])], Body := Except.ok [] }
      (by decide) (by decide)⟩

/-- C1, counterexample: with the secret `a b` the header `Bearer a b` is a
scheme that lowers to `bearer`, one space and the secret, yet the gate does
not run the next handler. -/
theorem auth_secret_with_space_counterexample :
    ¬ ((∀ next : Handler, apiKeyAuthMiddleware (lit "a b") next
          { Method := lit "GET", Path := lit "/", Query := [],
              Header := [(lit "Authorization", [lit "Bearer a b"])], Body := Except.ok [] } =
          next
            { Method := lit "GET", Path := lit "/", Query := [],
              Header := [(lit "Authorization", [lit "Bearer a b"])], Body := Except.ok [] }) ↔
        ∃ scheme, ToLower scheme = lit "bearer" ∧
          Header.Get [(lit "Authorization", [lit "Bearer a b"])] (lit "Authorization") =
            scheme ++ 32 :: lit "a b") := by
  intro h
  have hadm := h.2 ⟨lit "Bearer", by decide, by decide⟩
  have h1 := hadm (fun _ => [])
  revert h1
  decide

/-- C3: when the gate does not run the next handler, its events are one log
line and `http.Error` with "Unauthorized" and 401, whatever the next handler
is; so the status is 401, the body is "Unauthorized" and a newline, the
request body is not read and no insert is made. -/
theorem auth_reject_is_401 (S : GoString) (r : Request)
    (hrej : ¬ ∀ next : Handler, apiKeyAuthMiddleware S next r = next r) :
    (∃ reason, ∀ next : Handler, apiKeyAuthMiddleware S next r =
        Event.log reason [] :: httpError (lit "Unauthorized") StatusUnauthorized) ∧
      ∀ queries : Queries,
        responseStatus (serve S queries r) = some 401 ∧
        responseBody (serve S queries r) = lit "Unauthorized\n" ∧
        Event.readBody ∉ serve S queries r ∧
        insertsOf (serve S queries r) = [] := by
  have hS : S ≠ [] := fun e => hrej (fun next => middleware_pass S next r (Or.inl e))
  obtain ⟨reason, hr⟩ := middleware_block S r hS
    (fun hc => hrej (fun next => middleware_pass S next r (Or.inr hc)))
  refine ⟨⟨reason, hr⟩, fun queries => ?_⟩
  unfold serve
  rw [hr]
  refine ⟨rfl, rfl, by simp [httpError], rfl⟩

/-- C3, witness: secret `abc123`, no Authorization header. -/
theorem auth_reject_is_401_witness :
    (¬ ∀ next : Handler, apiKeyAuthMiddleware (lit "abc123") next
        { Method := lit "GET", Path := lit "/hooks/github", Query := lit "event=push",
            Header := [(lit "X-Event", [lit "push"])], Body := Except.ok [] } =
        next
          { Method := lit "GET", Path := lit "/hooks/github", Query := lit "event=push",
            Header := [(lit "X-Event", [lit "push"])], Body := Except.ok [] }) ∧
    ((∃ reason, ∀ next : Handler, apiKeyAuthMiddleware (lit "abc123") next
        { Method := lit "GET", Path := lit "/hooks/github", Query := lit "event=push",
            Header := [(lit "X-Event", [lit "push"])], Body := Except.ok [] } =
        Event.log reason [] :: httpError (lit "Unauthorized") StatusUnauthorized) ∧
      ∀ queries : Queries,
        responseStatus (serve (lit "abc123") queries
          { Method := lit "GET", Path := lit "/hooks/github", Query := lit "event=push",
            Header := [(lit "X-Event", [lit "push"])], Body := Except.ok [] }) = some 401 ∧
        responseBody (serve (lit "abc123") queries
          { Method := lit "GET", Path := lit "/hooks/github", Query := lit "event=push",
            Header := [(lit "X-Event", [lit "push"])], Body := Except.ok [] }) =
          lit "Unauthorized\n" ∧
        Event.readBody ∉ serve (lit "abc123") queries
          { Method := lit "GET", Path := lit "/hooks/github", Query := lit "event=push",
            Header := [(lit "X-Event", [lit "push"])], Body := Except.ok [] } ∧
        insertsOf (serve (lit "abc123") queries
          { Method := lit "GET", Path := lit "/hooks/github", Query := lit "event=push",
            Header := [(lit "X-Event", [lit "push"])], Body := Except.ok [] }) = []) :=
  ⟨fun h => absurd (h (fun _ => [])) (by decide),
    auth_reject_is_401 (lit "abc123")
      { Method := lit "GET", Path := lit "/hooks/github", Query := lit "event=push",
        Header := [(lit "X-Event", [lit "push"])], Body := Except.ok [] }
      (fun h => absurd (h (fun _ => [])) (by decide))⟩

/-- C6: with the empty secret the gate runs the next handler on every
request, whatever its headers. -/
theorem auth_disabled_admits_all (next : Handler) (r : Request) :
    apiKeyAuthMiddleware [] next r = next r :=
  middleware_pass [] next r (Or.inl rfl)

/-- C10: a secret that contains a space rejects every request: the gate
answers 401 and does not run the next handler, whatever the headers. -/
theorem auth_secret_with_space_rejects_all (S : GoString) (r : Request)
    (hsp : 32 ∈ S) :
    ∃ reason, ∀ next : Handler, apiKeyAuthMiddleware S next r =
      Event.log reason [] :: httpError (lit "Unauthorized") StatusUnauthorized := by
  have hS : S ≠ [] := by rintro rfl; simp at hsp
  apply middleware_block S r hS
  rintro ⟨_, h2, _, h4⟩
  have hne := Split_ne_nil (r.Header.Get (lit "Authorization")) 32
  match hs : Split (r.Header.Get (lit "Authorization")) 32, h2 with
  | [p, q], _ =>
    rw [hs] at h4
    simp at h4
    have hq : (32 : Nat) ∉ q :=
      Split_no_sep 32 (r.Header.Get (lit "Authorization")) q (by rw [hs]; simp)
    exact hq (h4 ▸ hsp)

/-- C10, witness: secret `a b`, header `Authorization: Bearer a b`. -/
theorem auth_secret_with_space_rejects_all_witness :
    32 ∈ lit "a b" ∧
    ∃ reason, ∀ next : Handler, apiKeyAuthMiddleware (lit "a b") next
        { Method := lit "GET", Path := lit "/", Query := [],
            Header := [(lit "Authorization", [lit "Bearer a b"])], Body := Except.ok [] } =
      Event.log reason [] :: httpError (lit "Unauthorized") StatusUnauthorized :=
  ⟨by decide,
    auth_secret_with_space_rejects_all (lit "a b")
      { Method := lit "GET", Path := lit "/", Query := [],
        Header := [(lit "Authorization", [lit "Bearer a b"])], Body := Except.ok [] }
      (by decide)⟩

/-! ## The capture handler, case by case -/

theorem indexRoute_read_error (queries : Queries) (r : Request) (err : GoString)
    (hb : r.Body = Except.error err) :
    indexRoute queries r =
      Event.log (lit "Incoming request: path=%s, query=%s") [r.Path, r.Query] ::
      Event.readBody ::
      Event.log (lit "Error reading request body: %v") [err] ::
        httpError (lit "Internal server error") StatusInternalServerError := by
  simp only [indexRoute, hb]

theorem indexRoute_read_ok (queries : Queries) (r : Request) (body : GoString)
    (hb : r.Body = Except.ok body) :
    indexRoute queries r =
      Event.log (lit "Incoming request: path=%s, query=%s") [r.Path, r.Query] ::
      Event.readBody ::
      Event.insert
        { Method := { String := r.Method, Valid := decide (r.Method ≠ []) },
          Path := r.Path, Headers := encodeMap r.Header, Query := r.Query, Body := body } ::
      match queries
        { Method := { String := r.Method, Valid := decide (r.Method ≠ []) },
          Path := r.Path, Headers := encodeMap r.Header, Query := r.Query, Body := body } with
      | some err =>
        Event.log (lit "Error inserting request into database: %v") [err] ::
          httpError (lit "Internal server error") StatusInternalServerError
      | none => [Event.write (lit "OK!")] := by
  simp only [indexRoute, hb, jsonMarshal]

theorem insertsOf_read_ok (queries : Queries) (r : Request) (body : GoString)
    (hb : r.Body = Except.ok body) :
    insertsOf (indexRoute queries r) =
      [{ Method := { String := r.Method, Valid := decide (r.Method ≠ []) },
         Path := r.Path, Headers := encodeMap r.Header, Query := r.Query, Body := body }] := by
  rw [indexRoute_read_ok queries r body hb]
  cases queries
        { Method := { String := r.Method, Valid := decide (r.Method ≠ []) },
          Path := r.Path, Headers := encodeMap r.Header, Query := r.Query, Body := body } <;> rfl

/-! ## The capture handler: claims -/

/-- C2: when the body is read and the store accepts the insert, `indexRoute`
answers 200 with body "OK!" and makes exactly one `InsertRequest` call, whose
record carries the request path, the encoded query, the marshalled headers,
the bytes read and the method, the method being NULL exactly when it is the
empty string. -/
theorem capture_success (queries : Queries) (r : Request) (body : GoString)
    (hb : r.Body = Except.ok body)
    (hstore : ∀ p ∈ insertsOf (indexRoute queries r), queries p = none) :
    responseStatus (indexRoute queries r) = some 200 ∧
      responseBody (indexRoute queries r) = lit "OK!" ∧
      ∃ p, insertsOf (indexRoute queries r) = [p] ∧
        p.Path = r.Path ∧ p.Query = r.Query ∧
        jsonMarshal r.Header = Except.ok p.Headers ∧
        p.Body = body ∧ p.Method.String = r.Method ∧
        (p.Method.Valid = false ↔ r.Method = []) := by
  have hins := insertsOf_read_ok queries r body hb
  have hq := hstore _ (by rw [hins]; exact List.mem_singleton_self _)
  have htr := indexRoute_read_ok queries r body hb
  rw [hq] at htr
  refine ⟨by rw [htr]; rfl, by rw [htr]; rfl, _, hins, rfl, rfl, rfl, rfl, rfl, ?_⟩
  simp

/-- C2, witness: `GET /hooks/github?event=push` with `X-Event: push`, empty
body, a store that accepts. -/
theorem capture_success_witness :
    ((({ Method := lit "GET", Path := lit "/hooks/github", Query := lit "event=push",
         Header := [(lit "X-Event", [lit "push"])], Body := Except.ok [] } : Request).Body =
        Except.ok []) ∧
      (∀ p ∈ insertsOf (indexRoute (fun _ => none)
          { Method := lit "GET", Path := lit "/hooks/github", Query := lit "event=push",
            Header := [(lit "X-Event", [lit "push"])], Body := Except.ok [] }),
        (fun _ => none : Queries) p = none)) ∧
    (responseStatus (indexRoute (fun _ => none)
        { Method := lit "GET", Path := lit "/hooks/github", Query := lit "event=push",
          Header := [(lit "X-Event", [lit "push"])], Body := Except.ok [] }) = some 200 ∧
      responseBody (indexRoute (fun _ => none)
        { Method := lit "GET", Path := lit "/hooks/github", Query := lit "event=push",
          Header := [(lit "X-Event", [lit "push"])], Body := Except.ok [] }) = lit "OK!" ∧
      ∃ p, insertsOf (indexRoute (fun _ => none)
          { Method := lit "GET", Path := lit "/hooks/github", Query := lit "event=push",
            Header := [(lit "X-Event", [lit "push"])], Body := Except.ok [] }) = [p] ∧
        p.Path = lit "/hooks/github" ∧ p.Query = lit "event=push" ∧
        jsonMarshal [(lit "X-Event", [lit "push"])] = Except.ok p.Headers ∧
        p.Body = [] ∧ p.Method.String = lit "GET" ∧
        (p.Method.Valid = false ↔ lit "GET" = [])) :=
  ⟨⟨rfl, fun _ _ => rfl⟩,
    capture_success (fun _ => none)
      { Method := lit "GET", Path := lit "/hooks/github", Query := lit "event=push",
        Header := [(lit "X-Event", [lit "push"])], Body := Except.ok [] }
      [] rfl (fun _ _ => rfl)⟩

/-- C4: when reading the body fails, `indexRoute` answers 500 and makes no
`InsertRequest` call. -/
theorem capture_read_failure (queries : Queries) (r : Request) (err : GoString)
    (hb : r.Body = Except.error err) :
    responseStatus (indexRoute queries r) = some 500 ∧
      responseBody (indexRoute queries r) = lit "Internal server error\n" ∧
      insertsOf (indexRoute queries r) = [] := by
  rw [indexRoute_read_error queries r err hb]
  exact ⟨rfl, rfl, rfl⟩

/-- C4, witness: a body read that fails with "unexpected EOF". -/
theorem capture_read_failure_witness :
    (({ Method := lit "POST", Path := lit "/hooks/github", Query := [],
        Header := [(lit "X-Event", [lit "push"])],
        Body := Except.error (lit "unexpected EOF") } : Request).Body =
      Except.error (lit "unexpected EOF")) ∧
    (responseStatus (indexRoute (fun _ => none)
        { Method := lit "POST", Path := lit "/hooks/github", Query := [],
          Header := [(lit "X-Event", [lit "push"])],
          Body := Except.error (lit "unexpected EOF") }) = some 500 ∧
      responseBody (indexRoute (fun _ => none)
        { Method := lit "POST", Path := lit "/hooks/github", Query := [],
          Header := [(lit "X-Event", [lit "push"])],
          Body := Except.error (lit "unexpected EOF") }) = lit "Internal server error\n" ∧
      insertsOf (indexRoute (fun _ => none)
        { Method := lit "POST", Path := lit "/hooks/github", Query := [],
          Header := [(lit "X-Event", [lit "push"])],
          Body := Except.error (lit "unexpected EOF") }) = []) :=
  ⟨rfl,
    capture_read_failure (fun _ => none)
      { Method := lit "POST", Path := lit "/hooks/github", Query := [],
        Header := [(lit "X-Event", [lit "push"])],
        Body := Except.error (lit "unexpected EOF") }
      (lit "unexpected EOF") rfl⟩

/-- C5: when the body is read and the `InsertRequest` call returns an error,
`indexRoute` answers 500 with the fixed text, never writes "OK!", and every
event before the insert call leaves the response untouched: the response is
written after the call. -/
theorem capture_store_failure (queries : Queries) (r : Request) (body : GoString)
    (hb : r.Body = Except.ok body)
    (hstore : ∀ p ∈ insertsOf (indexRoute queries r), queries p ≠ none) :
    responseStatus (indexRoute queries r) = some 500 ∧
      responseBody (indexRoute queries r) = lit "Internal server error\n" ∧
      Event.write (lit "OK!") ∉ indexRoute queries r ∧
      ∃ before p after, indexRoute queries r = before ++ Event.insert p :: after ∧
        (∀ e ∈ before, e.isResponse = false) ∧
        (∀ e ∈ after, ∀ q, e ≠ Event.insert q) := by
  have hins := insertsOf_read_ok queries r body hb
  have hq := hstore _ (by rw [hins]; exact List.mem_singleton_self _)
  have htr := indexRoute_read_ok queries r body hb
  obtain ⟨err, he⟩ := Option.ne_none_iff_exists'.1 hq
  rw [he] at htr
  refine ⟨by rw [htr]; rfl, by rw [htr]; rfl, ?_, ?_⟩
  · rw [htr]
    simp only [httpError, List.mem_cons, List.mem_singleton, reduceCtorEq, false_or,
      Event.write.injEq, List.not_mem_nil, or_false]
    decide
  · refine ⟨[Event.log (lit "Incoming request: path=%s, query=%s") [r.Path, r.Query],
        Event.readBody], _, _, htr, ?_, ?_⟩
    · intro e he
      simp only [List.mem_cons, List.mem_singleton, List.not_mem_nil, or_false] at he
      rcases he with rfl | rfl <;> rfl
    · intro e he q
      simp only [httpError, List.mem_cons, List.mem_singleton, List.not_mem_nil, or_false] at he
      rcases he with rfl | rfl | rfl | rfl | rfl <;> simp

/-- C5, witness: a store that fails every insert with "database is locked". -/
theorem capture_store_failure_witness :
    ((({ Method := lit "GET", Path := lit "/hooks/github", Query := lit "event=push",
         Header := [(lit "X-Event", [lit "push"])], Body := Except.ok [] } : Request).Body =
        Except.ok []) ∧
      (∀ p ∈ insertsOf (indexRoute (fun _ => some (lit "database is locked"))
          { Method := lit "GET", Path := lit "/hooks/github", Query := lit "event=push",
            Header := [(lit "X-Event", [lit "push"])], Body := Except.ok [] }),
        (fun _ => some (lit "database is locked") : Queries) p ≠ none)) ∧
    (responseStatus (indexRoute (fun _ => some (lit "database is locked"))
        { Method := lit "GET", Path := lit "/hooks/github", Query := lit "event=push",
          Header := [(lit "X-Event", [lit "push"])], Body := Except.ok [] }) = some 500 ∧
      responseBody (indexRoute (fun _ => some (lit "database is locked"))
        { Method := lit "GET", Path := lit "/hooks/github", Query := lit "event=push",
          Header := [(lit "X-Event", [lit "push"])], Body := Except.ok [] }) =
        lit "Internal server error\n" ∧
      Event.write (lit "OK!") ∉ indexRoute (fun _ => some (lit "database is locked"))
        { Method := lit "GET", Path := lit "/hooks/github", Query := lit "event=push",
          Header := [(lit "X-Event", [lit "push"])], Body := Except.ok [] } ∧
      ∃ before p after, indexRoute (fun _ => some (lit "database is locked"))
          { Method := lit "GET", Path := lit "/hooks/github", Query := lit "event=push",
            Header := [(lit "X-Event", [lit "push"])], Body := Except.ok [] } =
          before ++ Event.insert p :: after ∧
        (∀ e ∈ before, e.isResponse = false) ∧
        (∀ e ∈ after, ∀ q, e ≠ Event.insert q)) :=
  ⟨⟨rfl, fun _ _ => by simp⟩,
    capture_store_failure (fun _ => some (lit "database is locked"))
      { Method := lit "GET", Path := lit "/hooks/github", Query := lit "event=push",
        Header := [(lit "X-Event", [lit "push"])], Body := Except.ok [] }
      [] rfl (fun _ _ => by simp)⟩

/-- C7 (as amended): `indexRoute` makes exactly one `InsertRequest` call when
the body is read, whatever the store answers, and none when reading the body
fails. -/
theorem capture_insert_count (queries : Queries) (r : Request) (body err : GoString) :
    (insertsOf (indexRoute queries { r with Body := Except.ok body })).length = 1 ∧
      (insertsOf (indexRoute queries { r with Body := Except.error err })).length = 0 := by
  constructor
  · rw [insertsOf_read_ok queries { r with Body := Except.ok body } body rfl]
    rfl
  · rw [indexRoute_read_error queries { r with Body := Except.error err } err rfl]
    rfl

/-- C7, counterexample: a request whose body read fails gets no
`InsertRequest` call, not one. -/
theorem capture_insert_count_counterexample :
    (insertsOf (indexRoute (fun _ => none)
        { Method := lit "POST", Path := lit "/hooks/github", Query := [],
          Header := [(lit "X-Event", [lit "push"])],
          Body := Except.error (lit "unexpected EOF") })).length ≠ 1 := by
  decide

/-! ## The chain: what the client sees -/

theorem serve_cases (S : GoString) (r : Request) :
    (∀ (queries : Queries) (r' : Request), r'.Header = r.Header →
        serve S queries r' = indexRoute queries r') ∨
      (∀ (queries : Queries) (r' : Request), r'.Header = r.Header →
        ∃ reason, serve S queries r' =
          Event.log reason [] :: httpError (lit "Unauthorized") StatusUnauthorized) := by
  by_cases h : S = [] ∨
      (r.Header.Get (lit "Authorization") ≠ [] ∧
        (Split (r.Header.Get (lit "Authorization")) 32).length = 2 ∧
        ToLower ((Split (r.Header.Get (lit "Authorization")) 32).getD 0 []) = lit "bearer" ∧
        (Split (r.Header.Get (lit "Authorization")) 32).getD 1 [] = S)
  · left
    intro queries r' hh
    exact middleware_pass S _ r' (by rw [hh]; exact h)
  · right
    intro queries r' hh
    push_neg at h
    obtain ⟨reason, hr⟩ := middleware_block S r' h.1
      (by rw [hh]; intro hc; exact absurd hc.2.2.2 (h.2 hc.1 hc.2.1 hc.2.2.1))
    exact ⟨reason, hr _⟩

theorem indexRoute_response (queries : Queries) (r : Request) :
    (responseStatus (indexRoute queries r), responseBody (indexRoute queries r)) =
      match r.Body with
      | Except.error _ => (some 500, lit "Internal server error\n")
      | Except.ok body =>
        match queries
          { Method := { String := r.Method, Valid := decide (r.Method ≠ []) },
            Path := r.Path, Headers := encodeMap r.Header, Query := r.Query, Body := body } with
        | some _ => (some 500, lit "Internal server error\n")
        | none => (some 200, lit "OK!") := by
  cases hb : r.Body with
  | error err => rw [indexRoute_read_error queries r err hb]; rfl
  | ok body =>
    rw [indexRoute_read_ok queries r body hb]
    dsimp only
    cases queries
          { Method := { String := r.Method, Valid := decide (r.Method ≠ []) },
            Path := r.Path, Headers := encodeMap r.Header, Query := r.Query, Body := body } <;> rfl

/-- C8: whatever the secret, the request, the outcome of the body read and
the store, the client sees one of three fixed responses: 200 "OK!", 401
"Unauthorized" or 500 "Internal server error" (each error text with its
newline); the response is the same for any two read errors, and the same
when the store's error texts are replaced by others. -/
theorem response_is_one_of_three (S : GoString) (queries : Queries) (r : Request) :
    ((responseStatus (serve S queries r), responseBody (serve S queries r)) =
          (some 200, lit "OK!") ∨
        (responseStatus (serve S queries r), responseBody (serve S queries r)) =
          (some 401, lit "Unauthorized\n") ∨
        (responseStatus (serve S queries r), responseBody (serve S queries r)) =
          (some 500, lit "Internal server error\n")) ∧
      (∀ e₁ e₂ : GoString,
        (responseStatus (serve S queries { r with Body := Except.error e₁ }),
            responseBody (serve S queries { r with Body := Except.error e₁ })) =
          (responseStatus (serve S queries { r with Body := Except.error e₂ }),
            responseBody (serve S queries { r with Body := Except.error e₂ }))) ∧
      (∀ f : GoString → GoString,
        (responseStatus (serve S (fun p => (queries p).map f) r),
            responseBody (serve S (fun p => (queries p).map f) r)) =
          (responseStatus (serve S queries r), responseBody (serve S queries r))) := by
  rcases serve_cases S r with h | h
  · refine ⟨?_, fun e₁ e₂ => ?_, fun f => ?_⟩
    · rw [h queries r rfl, indexRoute_response]
      cases r.Body with
      | error err => simp
      | ok body =>
        simp only
        cases queries
          { Method := { String := r.Method, Valid := decide (r.Method ≠ []) },
            Path := r.Path, Headers := encodeMap r.Header, Query := r.Query, Body := body } <;>
          simp
    · rw [h queries { r with Body := Except.error e₁ } rfl,
        h queries { r with Body := Except.error e₂ } rfl, indexRoute_response,
        indexRoute_response]
    · rw [h _ r rfl, h queries r rfl, indexRoute_response, indexRoute_response]
      cases r.Body with
      | error err => rfl
      | ok body =>
        simp only
        cases queries
          { Method := { String := r.Method, Valid := decide (r.Method ≠ []) },
            Path := r.Path, Headers := encodeMap r.Header, Query := r.Query, Body := body } <;>
          rfl
  · have hfix : ∀ (q : Queries) (r' : Request), r'.Header = r.Header →
        (responseStatus (serve S q r'), responseBody (serve S q r')) =
          (some 401, lit "Unauthorized\n") := by
      intro q r' hh
      obtain ⟨reason, hr⟩ := h q r' hh
      rw [hr]
      rfl
    refine ⟨Or.inr (Or.inl (hfix queries r rfl)), fun e₁ e₂ => ?_, fun f => ?_⟩
    · rw [hfix queries { r with Body := Except.error e₁ } rfl,
        hfix queries { r with Body := Except.error e₂ } rfl]
    · rw [hfix _ r rfl, hfix queries r rfl]

/-! ## A JSON string determines the bytes it was written from -/

/-- The loop of `appendString` does not depend on the fuel once the fuel
covers the length: the length is enough. -/
theorem appendStringLoop_fuel :
    ∀ (fuel₁ fuel₂ : Nat) (s : GoString), s.length ≤ fuel₁ → s.length ≤ fuel₂ →
      appendStringLoop fuel₁ s = appendStringLoop fuel₂ s := by
  intro fuel₁
  induction fuel₁ with
  | zero =>
    intro fuel₂ s h₁ _
    have : s = [] := List.length_eq_zero.1 (Nat.le_zero.1 h₁)
    subst this
    cases fuel₂ <;> simp [appendStringLoop]
  | succ f₁ ih =>
    intro fuel₂ s h₁ h₂
    cases s with
    | nil => cases fuel₂ <;> simp [appendStringLoop]
    | cons b rest =>
      cases fuel₂ with
      | zero => simp at h₂
      | succ f₂ =>
        have r₁ : rest.length ≤ f₁ := by simpa using h₁
        have r₂ : rest.length ≤ f₂ := by simpa using h₂
        have d₁ : ∀ k, (rest.drop k).length ≤ f₁ := fun k => by
          rw [List.length_drop]; omega
        have d₂ : ∀ k, (rest.drop k).length ≤ f₂ := fun k => by
          rw [List.length_drop]; omega
        simp only [appendStringLoop]
        rw [ih f₂ rest r₁ r₂, ih f₂ (rest.drop _) (d₁ _) (d₂ _)]

theorem readString_cons (b : Nat) (rest : List Nat) :
    readString (b :: rest) =
      if b = 34 then some ([], rest)
      else if b ≠ 92 then (readString rest).map (fun p => (b :: p.1, p.2))
      else
        match rest with
        | [] => none
        | c :: rest1 =>
          if c = 117 then
            match rest1 with
            | d1 :: d2 :: d3 :: d4 :: rest2 =>
              (readString rest2).map (fun p =>
                (utf8Bytes (((unhex d1 * 16 + unhex d2) * 16 + unhex d3) * 16 + unhex d4) ++ p.1,
                  p.2))
            | _ => none
          else (readString rest1).map (fun p => (unescapeChar c :: p.1, p.2)) := by
  conv_lhs => unfold readString

theorem readString_ascii (b : Nat) (hb : b < 0x80) (out : List Nat) :
    readString ((if htmlSafeSet b then [b] else escapeByte b) ++ out) =
      (readString out).map (fun p => (b :: p.1, p.2)) := by
  interval_cases b <;>
    first
    | rfl
    | simp [htmlSafeSet, escapeByte, readString_cons, unescapeChar]

theorem readString_raw (out : List Nat) :
    ∀ xs : List Nat, (∀ x ∈ xs, 0x80 ≤ x) →
      readString (xs ++ out) = (readString out).map (fun p => (xs ++ p.1, p.2)) := by
  intro xs
  induction xs with
  | nil => intro _; simp
  | cons x xs ih =>
    intro h
    have hx : 0x80 ≤ x := h x (List.mem_cons_self _ _)
    have h34 : ¬ x = 34 := by omega
    have h92 : x ≠ 92 := by omega
    rw [List.cons_append, readString_cons, if_neg h34, if_pos h92,
      ih (fun y hy => h y (List.mem_cons_of_mem _ hy))]
    cases readString out <;> rfl

theorem readString_separator (k : Nat) (hk : 8 ≤ k ∧ k < 10) (out : List Nat) :
    readString ([92, 117, 50, 48, 50, hex k] ++ out) =
      (readString out).map (fun p => ([0xE2, 0x80, 0xA0 + k] ++ p.1, p.2)) := by
  obtain ⟨h1, h2⟩ := hk
  interval_cases k <;> rfl

/-- DecodeRuneInString on the cases the encoder copies or escapes as a rune:
the width is within the string, the bytes consumed are all 0x80 or more, and
the runes U+2028 and U+2029 are the bytes E2 80 A8 and E2 80 A9. -/
theorem decode_spec (b : Nat) (rest : GoString) (d : Nat × Nat) (hb : 0x80 ≤ b)
    (hd : DecodeRuneInString (b :: rest) = d) (hv : ¬ (d.1 = RuneError ∧ d.2 = 1)) :
    1 ≤ d.2 ∧ d.2 ≤ (b :: rest).length ∧ (∀ x ∈ (b :: rest).take d.2, 0x80 ≤ x) ∧
      ((d.1 = 0x2028 ∨ d.1 = 0x2029) →
        (b :: rest).take d.2 = [0xE2, 0x80, 0xA0 + d.1 % 16] ∧ 8 ≤ d.1 % 16 ∧ d.1 % 16 < 10) := by
  have h0 : ¬ b < 128 := by omega
  by_cases h1 : b < 194 ∨ 244 < b
  · exfalso
    apply hv
    rw [← hd]
    cases rest <;> simp only [DecodeRuneInString, if_neg h0, if_pos h1, and_self]
  · obtain ⟨sz, hs⟩ : ∃ sz, (if b < 224 then 2 else if b < 240 then 3 else 4) = sz := ⟨_, rfl⟩
    obtain ⟨lo, hl⟩ :
      ∃ lo, (if b = 224 then 160 else if b = 240 then 144 else 128) = lo := ⟨_, rfl⟩
    obtain ⟨hi, hh⟩ :
      ∃ hi, (if b = 237 then 159 else if b = 244 then 143 else 191) = hi := ⟨_, rfl⟩
    have hs' : (b < 224 ∧ sz = 2) ∨ (224 ≤ b ∧ b < 240 ∧ sz = 3) ∨ (240 ≤ b ∧ sz = 4) := by
      split_ifs at hs <;> omega
    have hl' : 128 ≤ lo ∧ (b = 240 → lo = 144) := by
      split_ifs at hl <;> omega
    have hh' : hi ≤ 191 := by
      split_ifs at hh <;> omega
    rcases rest with _ | ⟨s1, _ | ⟨s2, _ | ⟨s3, t3⟩⟩⟩ <;>
      simp only [DecodeRuneInString, List.length, if_neg h0, if_neg h1, hs, hl, hh] at hd <;>
      clear hs hl hh <;>
      split_ifs at hd <;>
      subst hd <;>
      first
      | (simp only [and_self, not_true_eq_false] at hv; done)
      | (clear hv
         refine ⟨by omega, by simp only [List.length]; omega, ?_, ?_⟩
         · simp only [List.take, List.mem_cons, forall_eq_or_imp, List.not_mem_nil,
             false_implies, implies_true, and_true, List.take_succ_cons, List.take_zero]
           omega
         · simp only [List.take, List.take_succ_cons, List.take_zero, List.cons.injEq,
             and_true, reduceCtorEq, and_false, false_and]
           omega)

theorem decode_ascii (b : Nat) (rest : GoString) (hb : b < 0x80) :
    DecodeRuneInString (b :: rest) = (b, 1) := by
  simp only [DecodeRuneInString, if_pos hb]

theorem readString_appendStringLoop :
    ∀ (fuel : Nat) (s : GoString) (out : List Nat), s.length ≤ fuel →
      ValidStringLoop fuel s = true →
      readString (appendStringLoop fuel s ++ 34 :: out) = some (s, out) := by
  intro fuel
  induction fuel with
  | zero =>
    intro s out hlen _
    have : s = [] := List.length_eq_zero.1 (Nat.le_zero.1 hlen)
    subst this
    simp [appendStringLoop, readString_cons]
  | succ fuel ih =>
    intro s out hlen hval
    cases s with
    | nil => simp [appendStringLoop, readString_cons]
    | cons b rest =>
      have hrest : rest.length ≤ fuel := by simpa using hlen
      by_cases hb : b < 0x80
      · have hval' : ValidStringLoop fuel rest = true := by
          simp only [ValidStringLoop, decode_ascii b rest hb] at hval
          simp only [Nat.sub_self, List.drop_zero] at hval
          split_ifs at hval
          exact hval
        simp only [appendStringLoop, if_pos hb]
        rw [List.append_assoc, readString_ascii b hb, ih rest out hrest hval']
        rfl
      · obtain ⟨d, hd⟩ : ∃ d, DecodeRuneInString (b :: rest) = d := ⟨_, rfl⟩
        simp only [ValidStringLoop, hd] at hval
        have hv : ¬ (d.1 = RuneError ∧ d.2 = 1) := by
          intro h; rw [if_pos h] at hval; exact absurd hval (by simp)
        rw [if_neg hv] at hval
        obtain ⟨hd1, hd2, hge, hsep⟩ := decode_spec b rest d (by omega) hd hv
        have hdrop : rest.drop (d.2 - 1) = (b :: rest).drop d.2 := by
          obtain ⟨k, hk⟩ : ∃ k, d.2 = k + 1 := ⟨d.2 - 1, by omega⟩
          rw [hk]; simp
        have hlen' : (rest.drop (d.2 - 1)).length ≤ fuel := by
          rw [List.length_drop]; omega
        have hrec := ih (rest.drop (d.2 - 1)) out hlen' hval
        have hsplit : (b :: rest).take d.2 ++ rest.drop (d.2 - 1) = b :: rest := by
          rw [hdrop, List.take_append_drop]
        simp only [appendStringLoop, if_neg hb, hd, if_neg hv]
        by_cases h28 : d.1 = 0x2028 ∨ d.1 = 0x2029
        · obtain ⟨htake, hk⟩ := hsep h28
          rw [if_pos h28, List.append_assoc, readString_separator _ hk, hrec]
          rw [← htake]
          simp only [Option.map_some']
          rw [hsplit]
        · rw [if_neg h28, List.append_assoc, readString_raw _ _ hge, hrec]
          simp only [Option.map_some']
          rw [hsplit]

/-- The text of a valid UTF-8 string, followed by anything, reads back as
that string and what follows. -/
theorem readString_appendString (s : GoString) (out : List Nat)
    (hs : ValidString s = true) :
    ∃ body, appendString s ++ out = 34 :: body ∧ readString body = some (s, out) := by
  refine ⟨appendStringLoop s.length s ++ 34 :: out, ?_, ?_⟩
  · simp [appendString]
  · exact readString_appendStringLoop s.length s out (Nat.le_refl _) hs

theorem appendString_cancel (s₁ s₂ : GoString) (o₁ o₂ : List Nat)
    (h₁ : ValidString s₁ = true) (h₂ : ValidString s₂ = true)
    (h : appendString s₁ ++ o₁ = appendString s₂ ++ o₂) : s₁ = s₂ ∧ o₁ = o₂ := by
  obtain ⟨b₁, e₁, r₁⟩ := readString_appendString s₁ o₁ h₁
  obtain ⟨b₂, e₂, r₂⟩ := readString_appendString s₂ o₂ h₂
  rw [e₁, e₂] at h
  have hb : b₁ = b₂ := (List.cons.inj h).2
  rw [hb, r₂] at r₁
  simpa [eq_comm] using r₁

/-! ## The marshalled header map determines the map -/

theorem encodeElems_cancel :
    ∀ (vs₁ vs₂ : List GoString) (first : Bool) (o₁ o₂ : List Nat),
      (∀ v ∈ vs₁, ValidString v = true) → (∀ v ∈ vs₂, ValidString v = true) →
      encodeElems first vs₁ ++ 93 :: o₁ = encodeElems first vs₂ ++ 93 :: o₂ →
      vs₁ = vs₂ ∧ o₁ = o₂ := by
  intro vs₁
  induction vs₁ with
  | nil =>
    intro vs₂ first o₁ o₂ _ _ h
    cases vs₂ with
    | nil => simpa [encodeElems] using h
    | cons v vs =>
      exfalso
      cases first <;> simp [encodeElems, appendString] at h
  | cons v₁ vs₁ ih =>
    intro vs₂ first o₁ o₂ h₁ h₂ h
    cases vs₂ with
    | nil =>
      exfalso
      cases first <;> simp [encodeElems, appendString] at h
    | cons v₂ vs₂ =>
      have hv₁ := h₁ v₁ (List.mem_cons_self _ _)
      have hv₂ := h₂ v₂ (List.mem_cons_self _ _)
      have h' : appendString v₁ ++ (encodeElems false vs₁ ++ 93 :: o₁) =
          appendString v₂ ++ (encodeElems false vs₂ ++ 93 :: o₂) := by
        cases first <;> simpa [encodeElems, List.append_assoc] using h
      obtain ⟨e, hrest⟩ := appendString_cancel v₁ v₂ _ _ hv₁ hv₂ h'
      obtain ⟨e', ho⟩ := ih vs₂ false o₁ o₂
        (fun v hv => h₁ v (List.mem_cons_of_mem _ hv))
        (fun v hv => h₂ v (List.mem_cons_of_mem _ hv)) hrest
      exact ⟨by rw [e, e'], ho⟩

theorem encodeSlice_cancel (vs₁ vs₂ : List GoString) (o₁ o₂ : List Nat)
    (h₁ : ∀ v ∈ vs₁, ValidString v = true) (h₂ : ∀ v ∈ vs₂, ValidString v = true)
    (h : encodeSlice vs₁ ++ o₁ = encodeSlice vs₂ ++ o₂) : vs₁ = vs₂ ∧ o₁ = o₂ := by
  apply encodeElems_cancel vs₁ vs₂ true o₁ o₂ h₁ h₂
  simpa [encodeSlice, List.append_assoc] using h

theorem encodeEntries_cancel :
    ∀ (h₁ h₂ : Header) (first : Bool) (o₁ o₂ : List Nat),
      (∀ kv ∈ h₁, ValidString kv.1 = true ∧ ∀ v ∈ kv.2, ValidString v = true) →
      (∀ kv ∈ h₂, ValidString kv.1 = true ∧ ∀ v ∈ kv.2, ValidString v = true) →
      encodeEntries first h₁ ++ 125 :: o₁ = encodeEntries first h₂ ++ 125 :: o₂ →
      h₁ = h₂ ∧ o₁ = o₂ := by
  intro h₁
  induction h₁ with
  | nil =>
    intro h₂ first o₁ o₂ _ _ h
    cases h₂ with
    | nil => simpa [encodeEntries] using h
    | cons kv rest =>
      exfalso
      cases first <;> simp [encodeEntries, appendString] at h
  | cons kv₁ rest₁ ih =>
    intro h₂ first o₁ o₂ v₁ v₂ h
    cases h₂ with
    | nil =>
      exfalso
      cases first <;> simp [encodeEntries, appendString] at h
    | cons kv₂ rest₂ =>
      obtain ⟨hk₁, hvs₁⟩ := v₁ kv₁ (List.mem_cons_self _ _)
      obtain ⟨hk₂, hvs₂⟩ := v₂ kv₂ (List.mem_cons_self _ _)
      have h' : appendString kv₁.1 ++
            (58 :: (encodeSlice kv₁.2 ++ (encodeEntries false rest₁ ++ 125 :: o₁))) =
          appendString kv₂.1 ++
            (58 :: (encodeSlice kv₂.2 ++ (encodeEntries false rest₂ ++ 125 :: o₂))) := by
        cases first <;> simpa [encodeEntries, List.append_assoc] using h
      obtain ⟨ek, hrest⟩ := appendString_cancel kv₁.1 kv₂.1 _ _ hk₁ hk₂ h'
      obtain ⟨ev, hrest'⟩ := encodeSlice_cancel kv₁.2 kv₂.2 _ _ hvs₁ hvs₂
        (List.cons.inj hrest).2
      obtain ⟨er, ho⟩ := ih rest₂ false o₁ o₂
        (fun kv hkv => v₁ kv (List.mem_cons_of_mem _ hkv))
        (fun kv hkv => v₂ kv (List.mem_cons_of_mem _ hkv)) hrest'
      exact ⟨by rw [Prod.ext ek ev, er], ho⟩

theorem encodeMap_perm (h₁ h₂ : Header)
    (v₁ : ∀ kv ∈ h₁, ValidString kv.1 = true ∧ ∀ v ∈ kv.2, ValidString v = true)
    (v₂ : ∀ kv ∈ h₂, ValidString kv.1 = true ∧ ∀ v ∈ kv.2, ValidString v = true)
    (h : encodeMap h₁ = encodeMap h₂) : h₁.Perm h₂ := by
  have p₁ := List.perm_insertionSort (fun a b : GoString × List GoString =>
    stringLE a.1 b.1 = true) h₁
  have p₂ := List.perm_insertionSort (fun a b : GoString × List GoString =>
    stringLE a.1 b.1 = true) h₂
  have hs : encodeEntries true (h₁.insertionSort (fun a b => stringLE a.1 b.1 = true))
        ++ 125 :: [] =
      encodeEntries true (h₂.insertionSort (fun a b => stringLE a.1 b.1 = true))
        ++ 125 :: [] := by
    simpa [encodeMap] using h
  obtain ⟨e, _⟩ := encodeEntries_cancel _ _ true [] []
    (fun kv hkv => v₁ kv (p₁.mem_iff.1 hkv)) (fun kv hkv => v₂ kv (p₂.mem_iff.1 hkv)) hs
  exact p₁.symm.trans (e ▸ p₂)

/-! ## The stored headers: claims -/

/-- C9 (as amended): when every header name and value is valid UTF-8, the
headers text of the stored record determines the header set: two requests
whose stored headers texts are equal have the same entries, each name with
its full ordered list of values. -/
theorem stored_headers_determine_header (q₁ q₂ : Queries) (r₁ r₂ : Request)
    (p₁ p₂ : InsertRequestParams)
    (v₁ : ∀ kv ∈ r₁.Header, ValidString kv.1 = true ∧ ∀ v ∈ kv.2, ValidString v = true)
    (v₂ : ∀ kv ∈ r₂.Header, ValidString kv.1 = true ∧ ∀ v ∈ kv.2, ValidString v = true)
    (i₁ : p₁ ∈ insertsOf (indexRoute q₁ r₁)) (i₂ : p₂ ∈ insertsOf (indexRoute q₂ r₂))
    (h : p₁.Headers = p₂.Headers) :
    r₁.Header.Perm r₂.Header := by
  have key : ∀ (q : Queries) (r : Request) (p : InsertRequestParams),
      p ∈ insertsOf (indexRoute q r) → p.Headers = encodeMap r.Header := by
    intro q r p hp
    cases hb : r.Body with
    | error err =>
      rw [indexRoute_read_error q r err hb] at hp
      exact absurd hp (by simp [insertsOf, httpError])
    | ok body =>
      rw [insertsOf_read_ok q r body hb] at hp
      rw [List.mem_singleton.1 hp]
  apply encodeMap_perm r₁.Header r₂.Header v₁ v₂
  rw [← key q₁ r₁ p₁ i₁, ← key q₂ r₂ p₂ i₂, h]

/-- C9, witness: two requests with the same two headers, one of them repeated
(`X-Signature` twice), listed in a different order. -/
theorem stored_headers_determine_header_witness :
    ((∀ kv ∈ Request.Header
            { Method := lit "POST", Path := lit "/hooks/github", Query := [],
              Header := [(lit "X-Signature", [lit "sha1=aa", lit "sha256=bb"]),
                (lit "Accept", [lit "*/*"])],
              Body := Except.ok (lit "a") },
          ValidString kv.1 = true ∧ ∀ v ∈ kv.2, ValidString v = true) ∧
      (∀ kv ∈ Request.Header
            { Method := lit "GET", Path := lit "/", Query := [],
              Header := [(lit "Accept", [lit "*/*"]),
                (lit "X-Signature", [lit "sha1=aa", lit "sha256=bb"])],
              Body := Except.ok [] },
          ValidString kv.1 = true ∧ ∀ v ∈ kv.2, ValidString v = true) ∧
      ({ Method := { String := lit "POST", Valid := true }, Path := lit "/hooks/github",
         Headers := lit "\x7b\"Accept\":[\"*/*\"],\"X-Signature\":[\"sha1=aa\",\"sha256=bb\"]\x7d",
         Query := [], Body := lit "a" } : InsertRequestParams) ∈
        insertsOf (indexRoute (fun _ => none)
          { Method := lit "POST", Path := lit "/hooks/github", Query := [],
            Header := [(lit "X-Signature", [lit "sha1=aa", lit "sha256=bb"]),
              (lit "Accept", [lit "*/*"])],
            Body := Except.ok (lit "a") }) ∧
      ({ Method := { String := lit "GET", Valid := true }, Path := lit "/",
         Headers := lit "\x7b\"Accept\":[\"*/*\"],\"X-Signature\":[\"sha1=aa\",\"sha256=bb\"]\x7d",
         Query := [], Body := [] } : InsertRequestParams) ∈
        insertsOf (indexRoute (fun _ => none)
          { Method := lit "GET", Path := lit "/", Query := [],
            Header := [(lit "Accept", [lit "*/*"]),
              (lit "X-Signature", [lit "sha1=aa", lit "sha256=bb"])],
            Body := Except.ok [] }) ∧
      InsertRequestParams.Headers
          { Method := { String := lit "POST", Valid := true }, Path := lit "/hooks/github",
            Headers := lit "\x7b\"Accept\":[\"*/*\"],\"X-Signature\":[\"sha1=aa\",\"sha256=bb\"]\x7d",
            Query := [], Body := lit "a" } =
        InsertRequestParams.Headers
          { Method := { String := lit "GET", Valid := true }, Path := lit "/",
            Headers := lit "\x7b\"Accept\":[\"*/*\"],\"X-Signature\":[\"sha1=aa\",\"sha256=bb\"]\x7d",
            Query := [], Body := [] }) ∧
    List.Perm
      [(lit "X-Signature", [lit "sha1=aa", lit "sha256=bb"]), (lit "Accept", [lit "*/*"])]
      [(lit "Accept", [lit "*/*"]), (lit "X-Signature", [lit "sha1=aa", lit "sha256=bb"])] :=
  ⟨⟨by decide, by decide, by decide, by decide, rfl⟩,
    stored_headers_determine_header (fun _ => none) (fun _ => none)
      { Method := lit "POST", Path := lit "/hooks/github", Query := [],
        Header := [(lit "X-Signature", [lit "sha1=aa", lit "sha256=bb"]),
          (lit "Accept", [lit "*/*"])],
        Body := Except.ok (lit "a") }
      { Method := lit "GET", Path := lit "/", Query := [],
        Header := [(lit "Accept", [lit "*/*"]),
          (lit "X-Signature", [lit "sha1=aa", lit "sha256=bb"])],
        Body := Except.ok [] }
      { Method := { String := lit "POST", Valid := true }, Path := lit "/hooks/github",
        Headers := lit "\x7b\"Accept\":[\"*/*\"],\"X-Signature\":[\"sha1=aa\",\"sha256=bb\"]\x7d",
        Query := [], Body := lit "a" }
      { Method := { String := lit "GET", Valid := true }, Path := lit "/",
        Headers := lit "\x7b\"Accept\":[\"*/*\"],\"X-Signature\":[\"sha1=aa\",\"sha256=bb\"]\x7d",
        Query := [], Body := [] }
      (by decide) (by decide) (by decide) (by decide) rfl⟩

/-- C9, counterexample: the header sets `X-Signature: \xff` and
`X-Signature: \xfe` (one byte each, not valid UTF-8) differ, and the record
stored for either carries the same headers text, `{"X-Signature":["\ufffd"]}`
with the escape spelled out: the byte cannot be recovered. -/
theorem stored_headers_invalid_utf8_counterexample :
    insertsOf (indexRoute (fun _ => none)
        { Method := lit "POST", Path := lit "/hooks/github", Query := [],
          Header := [(lit "X-Signature", [[0xff]])], Body := Except.ok [] }) =
      [{ Method := { String := lit "POST", Valid := true }, Path := lit "/hooks/github",
         Headers := lit "\x7b\"X-Signature\":[\"\\ufffd\"]\x7d", Query := [], Body := [] }] ∧
    insertsOf (indexRoute (fun _ => none)
        { Method := lit "POST", Path := lit "/hooks/github", Query := [],
          Header := [(lit "X-Signature", [[0xfe]])], Body := Except.ok [] }) =
      [{ Method := { String := lit "POST", Valid := true }, Path := lit "/hooks/github",
         Headers := lit "\x7b\"X-Signature\":[\"\\ufffd\"]\x7d", Query := [], Body := [] }] ∧
    ¬ List.Perm [(lit "X-Signature", [[0xff]])] [(lit "X-Signature", [[(0xfe : Nat)]])] := by
  refine ⟨by decide, by decide, ?_⟩
  intro h
  have := List.perm_singleton.1 h
  revert this
  decide

end Borque
